import Mathlib

/-!
Shallow embedding of `app.py` of the Text-to-Video-Application repository.

The program is a Streamlit front-end around a remote video-generation
service.  The locally authored logic embedded here is:

* `sanitize_filename` — the filename sanitizer (`re.sub` of disallowed
  character runs, an 80-character cap, `strip`, space→underscore);
* `connect` — the multi-endpoint connection fallback with a liveness
  probe (`view_api`) and last-error propagation;
* `generate_video` — the retry ladder over durations
  `[duration, 5.0, 4.0, 3.5][:retries]`, with per-failure backoff
  sleeps `1.2 * attempt` and last-exception re-raise.

External effects (the remote `client.predict` call, `os.path.exists`,
the `strftime` timestamp) are parameters of an `Env` record; the loop
functions additionally return a trace of the remote calls made and of
the sleeps performed, so that ordering claims are statable.
Python ints are `ℤ` (slicing semantics of `list[:retries]` is modelled
faithfully, including negative stops), floats appearing here (durations,
seeds, sleep intervals) are `ℚ`.
-/

namespace TextToVideo

/-- A Python exception value: either an exception propagating out of the
remote client (identified abstractly by a number chosen by the
environment) or a `RuntimeError` with its message string. -/
inductive PyErr where
  | remote : Nat → PyErr
  | runtimeError : String → PyErr
deriving DecidableEq

/-- The first component `out` of the pair returned by `client.predict`:
either a dict (whose `"video"` key, when present, holds a path string,
as read by `out.get("video")`) or a non-dict value. -/
inductive ServerOut where
  | dict : Option String → ServerOut
  | nondict : ServerOut
deriving DecidableEq

/-- Outcome of one `client.predict` call: a returned `(out, used_seed)`
pair, or an exception raised by the call. -/
inductive CallResult where
  | ok : ServerOut → ℚ → CallResult
  | exn : PyErr → CallResult
deriving DecidableEq

/-- The external world as seen by `generate_video`: the remote call
(indexed by the 1-based attempt number and the duration passed),
the `os.path.exists` probe, and the `strftime("%Y%m%d-%H%M%S")`
timestamp taken on the success path. -/
structure Env where
  predict : Nat → ℚ → CallResult
  fileExists : String → Bool
  ts : String

/-- `OUT_DIR = "videos"` (app.py line 55). -/
def OUT_DIR : String := "videos"

/-- `SPACE_IDS` (app.py lines 35-38). -/
def SPACE_IDS : List String :=
  ["zerogpu-aoti/wan2-2-fp8da-aoti",
   "https://zerogpu-aoti-wan2-2-fp8da-aoti.hf.space/"]

/-- Membership in the regex character class `[A-Za-z0-9_. -]` of
`re.sub(r'[^A-Za-z0-9_. -]+', '_', s)` (app.py line 64). -/
def allowedChar (c : Char) : Bool :=
  decide ('A' ≤ c ∧ c ≤ 'Z') || decide ('a' ≤ c ∧ c ≤ 'z') ||
  decide ('0' ≤ c ∧ c ≤ '9') || (c == '_') || (c == '.') || (c == ' ') || (c == '-')

/-- Worker for the regex substitution: each maximal run of characters
outside the class is replaced by a single `'_'`.  The flag records
whether the previous character was part of such a run. -/
def subGo : List Char → Bool → List Char
  | [], _ => []
  | c :: cs, prevBad =>
    if allowedChar c then c :: subGo cs false
    else if prevBad then subGo cs true
    else '_' :: subGo cs true

/-- `re.sub(r'[^A-Za-z0-9_. -]+', '_', s)` on the character list of `s`. -/
def reSubDisallowed (s : List Char) : List Char := subGo s false

/-- ASCII whitespace removed by Python `str.strip()`; after the regex
substitution only `' '` of these can still occur, the rest are kept for
faithfulness of the helper itself. -/
def isPySpace (c : Char) : Bool :=
  (c == ' ') || (c == '\t') || (c == '\n') || (c == '\r') ||
  (c == '\x0b') || (c == '\x0c')

/-- Python `str.strip()` on a character list. -/
def pyStrip (l : List Char) : List Char :=
  ((l.dropWhile isPySpace).reverse.dropWhile isPySpace).reverse

/-- The character map of `.replace(' ', '_')`. -/
def spaceToUnderscore (c : Char) : Char := if c == ' ' then '_' else c

/-- `sanitize_filename` (app.py lines 63-65):
`s = re.sub(r'[^A-Za-z0-9_. -]+', '_', s)[:80]` then
`return s.strip().replace(' ', '_')`. -/
def sanitize_filename (s : String) : String :=
  String.mk ((pyStrip ((reSubDisallowed s.data).take 80)).map spaceToUnderscore)

/-- Python list slicing `l[:k]` with an `int` stop: a negative stop counts
from the end (clamped at zero). -/
def pySliceTo {α : Type} (l : List α) (k : ℤ) : List α :=
  if k < 0 then l.take (l.length - (-k).toNat) else l.take k.toNat

/-- `durations_try = [duration, 5.0, 4.0, 3.5]` (app.py line 95). -/
def durations_try (duration : ℚ) : List ℚ := [duration, 5, 4, 7/2]

/-- `out.get("video") if isinstance(out, dict) else None` (app.py line 112). -/
def video_path_of : ServerOut → Option String
  | .dict v => v
  | .nondict => none

/-- `os.path.join` for the two-argument use at app.py line 118 (posix:
an absolute second component discards the first). -/
def os_path_join (a b : String) : String :=
  if b.data.head? = some '/' then b else a ++ "/" ++ b

/-- Message of the `RuntimeError` raised at app.py line 114. -/
def missingMsg : String := "Server returned but video file was not found."

/-- The body of one iteration of the retry loop of `generate_video`
(app.py lines 99-120): the remote call, the unpacking of the result,
the video-file existence check (raising `RuntimeError` when the file is
absent), and the construction of the destination path that is returned
on success.  `Except.error` is the exception caught by the
`except Exception as e` handler. -/
def attemptBody (env : Env) (prompt : String) (d : ℚ) (attempt : Nat) :
    Except PyErr (String × ℚ) :=
  match env.predict attempt d with
  | .exn e => .error e
  | .ok out used_seed =>
    match video_path_of out with
    | none => .error (.runtimeError missingMsg)
    | some p =>
      if p = "" ∨ env.fileExists p = false then .error (.runtimeError missingMsg)
      else
        .ok (os_path_join OUT_DIR
              (env.ts ++ "_" ++ sanitize_filename (String.mk (prompt.data.take 60)) ++ ".mp4"),
            used_seed)

/-- Decidable equality for `Except`, needed so run outcomes can be
compared by evaluation. -/
def exceptDecEq {ε α : Type} [DecidableEq ε] [DecidableEq α] :
    (x y : Except ε α) → Decidable (x = y)
  | .ok a, .ok b =>
    if h : a = b then .isTrue (by rw [h]) else .isFalse (by intro hy; cases hy; exact h rfl)
  | .ok _, .error _ => .isFalse (by intro h; cases h)
  | .error _, .ok _ => .isFalse (by intro h; cases h)
  | .error e, .error f =>
    if h : e = f then .isTrue (by rw [h]) else .isFalse (by intro hy; cases hy; exact h rfl)

instance {ε α : Type} [DecidableEq ε] [DecidableEq α] : DecidableEq (Except ε α) :=
  exceptDecEq

/-- Observable outcome of a `generate_video` run: the `(attempt, duration)`
pairs of the remote calls made in order, the sleep intervals performed in
order, and the returned value or raised exception. -/
structure GVResult where
  calls : List (Nat × ℚ)
  sleeps : List ℚ
  result : Except PyErr (String × ℚ)
deriving DecidableEq

/-- The retry loop of `generate_video` (app.py lines 98-127), over the
remaining duration ladder, the current 1-based attempt number and the
current `last_exc`.  On failure the handler records the exception and
sleeps `1.2 * attempt`; when the ladder is exhausted the last exception
(or the fallback `RuntimeError`) is raised. -/
def genLoop (env : Env) (prompt : String) :
    List ℚ → Nat → Option PyErr → GVResult
  | [], _, lastExc =>
    ⟨[], [],
      .error (match lastExc with
        | some e => e
        | none => .runtimeError "Unknown generation failure.")⟩
  | d :: rest, attempt, _ =>
    match attemptBody env prompt d attempt with
    | .ok r => ⟨[(attempt, d)], [], .ok r⟩
    | .error e =>
      let tail := genLoop env prompt rest (attempt + 1) (some e)
      ⟨(attempt, d) :: tail.calls, (12/10 : ℚ) * attempt :: tail.sleeps, tail.result⟩

/-- `generate_video` (app.py lines 79-127), with the remote world as an
`Env`.  `retries` is a Python `int`, so the ladder is
`durations_try[:retries]` under Python slicing. -/
def generate_video (env : Env) (prompt : String) (duration : ℚ) (retries : ℤ) :
    GVResult :=
  genLoop env prompt (pySliceTo (durations_try duration) retries) 1 none

/-- Outcome of trying one Space target inside `connect` (app.py lines
71-76): `Client(target)` raised, or `c.view_api(...)` raised, or both
succeeded. -/
inductive ConnOutcome where
  | ok : ConnOutcome
  | clientErr : PyErr → ConnOutcome
  | probeErr : PyErr → ConnOutcome
deriving DecidableEq

/-- The exception recorded in `last_err` by one failed target, if any. -/
def outcomeErr : ConnOutcome → Option PyErr
  | .ok => none
  | .clientErr e => some e
  | .probeErr e => some e

/-- Observable outcome of a `connect` run: the targets attempted in
order, and the returned client (identified by its target) or the raised
exception. -/
structure ConnResult where
  attempted : List String
  result : Except PyErr String
deriving DecidableEq

/-- The loop of `connect` (app.py lines 69-77) over the remaining
targets and the current `last_err`; when the list is exhausted,
`raise last_err or RuntimeError("Failed to connect to any Space target.")`. -/
def connectGo (env : String → ConnOutcome) :
    List String → Option PyErr → ConnResult
  | [], lastErr =>
    ⟨[],
      .error (match lastErr with
        | some e => e
        | none => .runtimeError "Failed to connect to any Space target.")⟩
  | t :: ts, _ =>
    match env t with
    | .ok => ⟨[t], .ok t⟩
    | .clientErr e =>
      let r := connectGo env ts (some e)
      ⟨t :: r.attempted, r.result⟩
    | .probeErr e =>
      let r := connectGo env ts (some e)
      ⟨t :: r.attempted, r.result⟩

/-- `connect(space_ids, hf_token)` (app.py lines 67-77); the token only
selects which `Client` constructor call is made, which the environment
already abstracts. -/
def connect (env : String → ConnOutcome) (space_ids : List String) : ConnResult :=
  connectGo env space_ids none

/-- `Except.ok`-ness as a boolean, for decidable hypotheses. -/
def exOk {ε α : Type} : Except ε α → Bool
  | .ok _ => true
  | .error _ => false

/-- Enumeration of the ladder with 1-based attempt numbers, as
`enumerate(durations_try[:retries], 1)` produces it (pairs
`(attempt, duration)`). -/
def enumDur (a : Nat) : List ℚ → List (Nat × ℚ)
  | [] => []
  | d :: rest => (a, d) :: enumDur (a + 1) rest

/-- The backoff sleeps performed by `k` consecutive failed attempts
starting at attempt number `a`: `1.2 * a, 1.2 * (a+1), ...`. -/
def sleepSeq (a : Nat) : Nat → List ℚ
  | 0 => []
  | k + 1 => (12/10 : ℚ) * a :: sleepSeq (a + 1) k

/-- Environment in which every remote call raises (the exception is
tagged with the attempt number at which it was raised). -/
def envFailAll : Env :=
  { predict := fun i _ => .exn (.remote i)
    fileExists := fun _ => false
    ts := "20250101-000000" }

/-- Environment in which every remote call returns an existing video. -/
def envAlwaysOk : Env :=
  { predict := fun _ _ => .ok (.dict (some "/tmp/v.mp4")) 42
    fileExists := fun _ => true
    ts := "20250101-000000" }

/-- Environment in which the remote call returns normally but names a
file that does not exist on disk. -/
def envMissingFile : Env :=
  { predict := fun _ _ => .ok (.dict (some "ghost.mp4")) 1
    fileExists := fun _ => false
    ts := "ts" }

/-- Environment in which attempt 1 raises and attempt 2 returns an
existing video. -/
def envSecondTry : Env :=
  { predict := fun i _ => if i ≤ 1 then .exn (.remote i) else .ok (.dict (some "v.mp4")) 7
    fileExists := fun _ => true
    ts := "ts" }

/-- Connection environment in which target `"a"` fails at client
construction, target `"b"` is live, and anything else fails the probe. -/
def connEnvSample : String → ConnOutcome :=
  fun t => if t = "a" then .clientErr (.remote 0)
    else if t = "b" then .ok
    else .probeErr (.remote 9)

/-- Connection environment in which every target fails (client
construction raises, tagged by target length for distinctness). -/
def connEnvDown : String → ConnOutcome :=
  fun t => .clientErr (.remote t.length)

lemma exOk_false {ε α : Type} {x : Except ε α} (h : exOk x = false) :
    ∃ e, x = Except.error e := by
  cases x with
  | ok a => simp [exOk] at h
  | error e => exact ⟨e, rfl⟩

lemma genLoop_cons_ok {env : Env} {p : String} {d : ℚ} {a : Nat} {r : String × ℚ}
    (rest : List ℚ) (exc : Option PyErr) (h : attemptBody env p d a = Except.ok r) :
    genLoop env p (d :: rest) a exc = ⟨[(a, d)], [], Except.ok r⟩ := by
  simp [genLoop, h]

lemma genLoop_cons_err {env : Env} {p : String} {d : ℚ} {a : Nat} {e : PyErr}
    (rest : List ℚ) (exc : Option PyErr) (h : attemptBody env p d a = Except.error e) :
    genLoop env p (d :: rest) a exc =
      ⟨(a, d) :: (genLoop env p rest (a + 1) (some e)).calls,
       (12/10 : ℚ) * a :: (genLoop env p rest (a + 1) (some e)).sleeps,
       (genLoop env p rest (a + 1) (some e)).result⟩ := by
  simp [genLoop, h]

lemma pySliceTo_natCast {α : Type} (l : List α) (n : ℕ) :
    pySliceTo l (n : ℤ) = l.take n := by
  unfold pySliceTo
  rw [if_neg (by omega), Int.toNat_natCast]

lemma genLoop_calls_length_le (env : Env) (p : String) :
    ∀ (l : List ℚ) (a : Nat) (exc : Option PyErr),
      (genLoop env p l a exc).calls.length ≤ l.length := by
  intro l
  induction l with
  | nil => intro a exc; simp [genLoop]
  | cons d rest ih =>
    intro a exc
    cases h : attemptBody env p d a with
    | ok r => rw [genLoop_cons_ok rest exc h]; simp
    | error e =>
      rw [genLoop_cons_err rest exc h]
      simpa using ih (a + 1) (some e)

lemma genLoop_calls_mem (env : Env) (p : String) :
    ∀ (l : List ℚ) (a : Nat) (exc : Option PyErr) (cd : Nat × ℚ),
      cd ∈ (genLoop env p l a exc).calls → cd.2 ∈ l := by
  intro l
  induction l with
  | nil => intro a exc cd h; simp [genLoop] at h
  | cons d rest ih =>
    intro a exc cd h
    cases hb : attemptBody env p d a with
    | ok r =>
      rw [genLoop_cons_ok rest exc hb] at h
      simp at h
      simp [h]
    | error e =>
      rw [genLoop_cons_err rest exc hb] at h
      simp at h
      rcases h with h | h
      · simp [h]
      · exact List.mem_cons_of_mem _ (ih (a + 1) (some e) cd h)

lemma durations_try_length (duration : ℚ) : (durations_try duration).length = 4 := rfl

lemma genLoop_first_ok (env : Env) (p : String) :
    ∀ (l : List ℚ) (a : Nat) (exc : Option PyErr) (j : Nat) (hj : j < l.length)
      (r : String × ℚ),
      (∀ i (hi : i < j),
        exOk (attemptBody env p (l.get ⟨i, Nat.lt_trans hi hj⟩) (a + i)) = false) →
      attemptBody env p (l.get ⟨j, hj⟩) (a + j) = Except.ok r →
      genLoop env p l a exc = ⟨(enumDur a l).take (j + 1), sleepSeq a j, Except.ok r⟩ := by
  intro l
  induction l with
  | nil => intro a exc j hj r _ _; exact absurd hj (by simp)
  | cons d rest ih =>
    intro a exc j hj r hfail hok
    cases j with
    | zero =>
      have hok' : attemptBody env p d a = Except.ok r := by simpa using hok
      rw [genLoop_cons_ok rest exc hok']
      simp [enumDur, sleepSeq]
    | succ j' =>
      have h0 := hfail 0 (Nat.succ_pos j')
      obtain ⟨e, he⟩ := exOk_false (show exOk (attemptBody env p d a) = false by simpa using h0)
      rw [genLoop_cons_err rest exc he]
      have hj' : j' < rest.length := by simpa using Nat.lt_of_succ_lt_succ hj
      have hfail' : ∀ i (hi : i < j'),
          exOk (attemptBody env p (rest.get ⟨i, Nat.lt_trans hi hj'⟩) (a + 1 + i)) = false := by
        intro i hi
        have h1 := hfail (i + 1) (Nat.succ_lt_succ hi)
        simpa [List.get_cons_succ, show a + (i + 1) = a + 1 + i from by omega] using h1
      have hok' : attemptBody env p (rest.get ⟨j', hj'⟩) (a + 1 + j') = Except.ok r := by
        simpa [List.get_cons_succ, show a + (j' + 1) = a + 1 + j' from by omega] using hok
      rw [ih (a + 1) (some e) j' hj' r hfail' hok']
      simp [enumDur, sleepSeq]

lemma genLoop_all_fail (env : Env) (p : String) :
    ∀ (l : List ℚ) (a : Nat) (exc : Option PyErr) (e : PyErr) (hne : l ≠ []),
      (∀ i (hi : i < l.length),
        exOk (attemptBody env p (l.get ⟨i, hi⟩) (a + i)) = false) →
      attemptBody env p (l.getLast hne) (a + (l.length - 1)) = Except.error e →
      genLoop env p l a exc = ⟨enumDur a l, sleepSeq a l.length, Except.error e⟩ := by
  intro l
  induction l with
  | nil => intro a exc e hne _ _; exact absurd rfl hne
  | cons d rest ih =>
    intro a exc e hne hfail hlast
    have h0 := hfail 0 (by simp)
    obtain ⟨e0, he0⟩ := exOk_false (show exOk (attemptBody env p d a) = false by simpa using h0)
    rw [genLoop_cons_err rest exc he0]
    cases rest with
    | nil =>
      have hd : attemptBody env p d a = Except.error e := by simpa using hlast
      have he : e0 = e := by
        have h2 := he0.symm.trans hd
        injection h2
      subst he
      simp [genLoop, enumDur, sleepSeq]
    | cons d2 rest2 =>
      have hne' : d2 :: rest2 ≠ [] := by simp
      have hfail' : ∀ i (hi : i < (d2 :: rest2).length),
          exOk (attemptBody env p ((d2 :: rest2).get ⟨i, hi⟩) (a + 1 + i)) = false := by
        intro i hi
        have h1 := hfail (i + 1) (by simpa using Nat.succ_lt_succ hi)
        simpa [List.get_cons_succ, show a + (i + 1) = a + 1 + i from by omega] using h1
      have hlast' : attemptBody env p ((d2 :: rest2).getLast hne')
          (a + 1 + ((d2 :: rest2).length - 1)) = Except.error e := by
        have hgl : (d :: d2 :: rest2).getLast hne = (d2 :: rest2).getLast hne' :=
          List.getLast_cons hne'
        rw [hgl] at hlast
        have harith : a + ((d :: d2 :: rest2).length - 1) =
            a + 1 + ((d2 :: rest2).length - 1) := by
          simp
          omega
        rw [harith] at hlast
        exact hlast
      rw [ih (a + 1) (some e0) e hne' hfail' hlast']
      simp [enumDur, sleepSeq]

/-- Claim C1: the run attempts the remote call with durations taken in
the fixed order `[requested, 5.0, 4.0, 3.5]`, limited to the first
`retries` ladder entries; the calls made are exactly the enumerated
ladder up to and including the first succeeding attempt, whose value is
returned — no later entry is attempted. -/
theorem generate_video_first_success (env : Env) (p : String) (duration : ℚ)
    (retries : ℕ) (j : Nat)
    (hj : j < ((durations_try duration).take retries).length) (r : String × ℚ)
    (hfail : ∀ i (hi : i < j),
      exOk (attemptBody env p
        (((durations_try duration).take retries).get ⟨i, Nat.lt_trans hi hj⟩) (1 + i)) = false)
    (hok : attemptBody env p
      (((durations_try duration).take retries).get ⟨j, hj⟩) (1 + j) = Except.ok r) :
    (generate_video env p duration (retries : ℤ)).calls =
      (enumDur 1 ((durations_try duration).take retries)).take (j + 1) ∧
    (generate_video env p duration (retries : ℤ)).result = Except.ok r := by
  have h := genLoop_first_ok env p ((durations_try duration).take retries) 1 none j hj r
    hfail hok
  unfold generate_video
  rw [pySliceTo_natCast, h]
  exact ⟨rfl, rfl⟩

/-- Claim C1 witness: attempt 1 (duration 6) fails, attempt 2 (ladder
entry 5.0) succeeds; exactly two calls are made and its result is
returned. -/
theorem generate_video_first_success_witness :
    (generate_video envSecondTry "p" 6 ((4 : ℕ) : ℤ)).calls =
      (enumDur 1 ((durations_try 6).take 4)).take 2 ∧
    (generate_video envSecondTry "p" 6 ((4 : ℕ) : ℤ)).result =
      Except.ok ("videos/ts_p.mp4", 7) :=
  generate_video_first_success envSecondTry "p" 6 4 1 (by decide)
    ("videos/ts_p.mp4", 7) (by decide) (by decide)

/-- Claim C3: when every ladder attempt fails (and at least one attempt
is made), `generate_video` raises exactly the error recorded at the
last attempt. -/
theorem generate_video_all_fail_last_error (env : Env) (p : String) (duration : ℚ)
    (retries : ℕ) (e : PyErr) (hne : (durations_try duration).take retries ≠ [])
    (hfail : ∀ i (hi : i < ((durations_try duration).take retries).length),
      exOk (attemptBody env p
        (((durations_try duration).take retries).get ⟨i, hi⟩) (1 + i)) = false)
    (hlast : attemptBody env p (((durations_try duration).take retries).getLast hne)
      (1 + (((durations_try duration).take retries).length - 1)) = Except.error e) :
    (generate_video env p duration (retries : ℤ)).result = Except.error e := by
  have h := genLoop_all_fail env p ((durations_try duration).take retries) 1 none e hne
    hfail hlast
  unfold generate_video
  rw [pySliceTo_natCast, h]

/-- Claim C3 witness: with retries = 2 both attempts raise; the raised
error is the one of attempt 2. -/
theorem generate_video_all_fail_last_error_witness :
    (generate_video envFailAll "p" 6 ((2 : ℕ) : ℤ)).result =
      Except.error (PyErr.remote 2) :=
  generate_video_all_fail_last_error envFailAll "p" 6 2 (PyErr.remote 2)
    (by decide) (by decide) (by decide)

lemma string_data_append (a b : String) : (a ++ b).data = a.data ++ b.data := rfl

lemma head_append_of_ne_nil {α : Type} (l l' : List α) (h : l ≠ []) :
    (l ++ l').head? = l.head? := by
  cases l with
  | nil => exact absurd rfl h
  | cons a as => simp

lemma ts_filename_head (t x y : String) (hts : t.data.head? ≠ some '/') :
    ((t ++ "_" ++ x ++ y).data.head?) ≠ some '/' := by
  have h0 : ("_" : String).data = ['_'] := rfl
  rw [string_data_append, string_data_append, string_data_append, h0]
  rw [head_append_of_ne_nil _ _ (by simp), head_append_of_ne_nil _ _ (by simp)]
  cases ht : t.data with
  | nil => simp
  | cons a as =>
    rw [ht] at hts
    simpa using hts

lemma attemptBody_exn {env : Env} {p : String} {d : ℚ} {a : Nat} {e : PyErr}
    (h : env.predict a d = CallResult.exn e) :
    attemptBody env p d a = Except.error e := by
  simp [attemptBody, h]

lemma attemptBody_ok_none {env : Env} {p : String} {d : ℚ} {a : Nat} {out : ServerOut}
    {s : ℚ} (h : env.predict a d = CallResult.ok out s) (hv : video_path_of out = none) :
    attemptBody env p d a = Except.error (PyErr.runtimeError missingMsg) := by
  simp [attemptBody, h, hv]

lemma attemptBody_ok_bad {env : Env} {p : String} {d : ℚ} {a : Nat} {out : ServerOut}
    {s : ℚ} {q : String} (h : env.predict a d = CallResult.ok out s)
    (hv : video_path_of out = some q) (hq : q = "" ∨ env.fileExists q = false) :
    attemptBody env p d a = Except.error (PyErr.runtimeError missingMsg) := by
  simp only [attemptBody, h, hv]
  rw [if_pos hq]

lemma attemptBody_ok_good {env : Env} {p : String} {d : ℚ} {a : Nat} {out : ServerOut}
    {s : ℚ} {q : String} (h : env.predict a d = CallResult.ok out s)
    (hv : video_path_of out = some q) (hq : ¬ (q = "" ∨ env.fileExists q = false)) :
    attemptBody env p d a = Except.ok
      (os_path_join OUT_DIR
        (env.ts ++ "_" ++ sanitize_filename (String.mk (p.data.take 60)) ++ ".mp4"), s) := by
  simp only [attemptBody, h, hv]
  rw [if_neg hq]

lemma attemptBody_ok_inv (env : Env) (p : String) (d : ℚ) (a : Nat) (r : String × ℚ)
    (h : attemptBody env p d a = Except.ok r) :
    ∃ out q, env.predict a d = CallResult.ok out r.2 ∧ video_path_of out = some q ∧
      q ≠ "" ∧ env.fileExists q = true ∧
      r.1 = os_path_join OUT_DIR
        (env.ts ++ "_" ++ sanitize_filename (String.mk (p.data.take 60)) ++ ".mp4") := by
  cases hp : env.predict a d with
  | exn e => rw [attemptBody_exn hp] at h; simp at h
  | ok out s =>
    cases hv : video_path_of out with
    | none => rw [attemptBody_ok_none hp hv] at h; simp at h
    | some q =>
      by_cases hc : q = "" ∨ env.fileExists q = false
      · rw [attemptBody_ok_bad hp hv hc] at h; simp at h
      · rw [attemptBody_ok_good hp hv hc] at h
        push_neg at hc
        injection h with h2
        subst h2
        exact ⟨out, q, rfl, hv, hc.1, by simpa using hc.2, rfl⟩

lemma genLoop_ok_shape (env : Env) (p : String) :
    ∀ (l : List ℚ) (a : Nat) (exc : Option PyErr) (dest : String) (s : ℚ),
      (genLoop env p l a exc).result = Except.ok (dest, s) →
      ∃ i d out q, env.predict i d = CallResult.ok out s ∧ video_path_of out = some q ∧
        q ≠ "" ∧ env.fileExists q = true ∧
        dest = os_path_join OUT_DIR
          (env.ts ++ "_" ++ sanitize_filename (String.mk (p.data.take 60)) ++ ".mp4") := by
  intro l
  induction l with
  | nil => intro a exc dest s h; simp [genLoop] at h
  | cons d rest ih =>
    intro a exc dest s h
    cases hb : attemptBody env p d a with
    | ok r =>
      rw [genLoop_cons_ok rest exc hb] at h
      have hr : r = (dest, s) := by simpa using h
      obtain ⟨out, q, hp, hv, hq, hf, hd⟩ :=
        attemptBody_ok_inv env p d a (dest, s) (hr ▸ hb)
      exact ⟨a, d, out, q, hp, hv, hq, hf, hd⟩
    | error e =>
      rw [genLoop_cons_err rest exc hb] at h
      exact ih (a + 1) (some e) dest s (by simpa using h)

/-- Claim C5: when the remote call of an attempt returns but its result
does not name an existing video file (no dict, no `"video"` key, empty
path, or a path that does not exist on disk), the attempt raises the
`RuntimeError` of line 114; any failed attempt makes the loop record
the error, sleep, and continue with the rest of the ladder; and an
attempt can only return successfully when the returned file exists. -/
theorem attempt_requires_existing_file (env : Env) (p : String) (i : Nat) (d : ℚ)
    (out : ServerOut) (s : ℚ) (hpred : env.predict i d = CallResult.ok out s) :
    ((¬ ∃ q, video_path_of out = some q ∧ q ≠ "" ∧ env.fileExists q = true) →
      attemptBody env p d i = Except.error (PyErr.runtimeError missingMsg)) ∧
    (∀ r, attemptBody env p d i = Except.ok r →
      ∃ q, video_path_of out = some q ∧ q ≠ "" ∧ env.fileExists q = true) ∧
    (∀ e rest exc, attemptBody env p d i = Except.error e →
      genLoop env p (d :: rest) i exc =
        ⟨(i, d) :: (genLoop env p rest (i + 1) (some e)).calls,
         (12/10 : ℚ) * i :: (genLoop env p rest (i + 1) (some e)).sleeps,
         (genLoop env p rest (i + 1) (some e)).result⟩) := by
  refine ⟨?_, ?_, ?_⟩
  · intro hnot
    cases hv : video_path_of out with
    | none => exact attemptBody_ok_none hpred hv
    | some q =>
      have hq : q = "" ∨ env.fileExists q = false := by
        by_contra hcon
        push_neg at hcon
        exact hnot ⟨q, hv, hcon.1, by simpa using hcon.2⟩
      exact attemptBody_ok_bad hpred hv hq
  · intro r hr
    obtain ⟨out', q, hp', hv, hq, hf, -⟩ := attemptBody_ok_inv env p d i r hr
    have hout : out' = out := by
      have h2 := hp'.symm.trans hpred
      cases h2
      rfl
    exact ⟨q, hout ▸ hv, hq, hf⟩
  · intro e rest exc he
    exact genLoop_cons_err rest exc he

/-- Claim C5 witness: a predict call that returns a path to a
non-existent file makes the attempt fail with the `RuntimeError`. -/
theorem attempt_requires_existing_file_witness :
    attemptBody envMissingFile "p" 6 1 = Except.error (PyErr.runtimeError missingMsg) :=
  (attempt_requires_existing_file envMissingFile "p" 1 6
      (ServerOut.dict (some "ghost.mp4")) 1 rfl).1
    (by
      rintro ⟨q, hq, -, hex⟩
      simp only [envMissingFile] at hex
      exact absurd hex (by simp))

/-- Claim C6: on success `generate_video` returns a pair whose path is
`videos/` followed by the timestamp, an underscore, the sanitized
prompt slice and `.mp4`, and whose seed component is the seed returned
by the succeeding remote call (which named an existing file). -/
theorem generate_video_success_path (env : Env) (p : String) (duration : ℚ)
    (retries : ℤ) (dest : String) (s : ℚ)
    (hts : env.ts.data.head? ≠ some '/')
    (hok : (generate_video env p duration retries).result = Except.ok (dest, s)) :
    dest = OUT_DIR ++ "/" ++
      (env.ts ++ "_" ++ sanitize_filename (String.mk (p.data.take 60)) ++ ".mp4") ∧
    ∃ i d out q, env.predict i d = CallResult.ok out s ∧ video_path_of out = some q ∧
      q ≠ "" ∧ env.fileExists q = true := by
  obtain ⟨i, d, out, q, hp, hv, hq, hf, hd⟩ := genLoop_ok_shape env p _ 1 none dest s hok
  refine ⟨?_, i, d, out, q, hp, hv, hq, hf⟩
  rw [hd]
  unfold os_path_join
  rw [if_neg (ts_filename_head env.ts
    (sanitize_filename (String.mk (p.data.take 60))) ".mp4" hts)]

/-- Claim C6 witness: a run against an always-succeeding environment
returns the `videos/`-prefixed timestamped sanitized path and the
server seed 42. -/
theorem generate_video_success_path_witness :
    ("videos/20250101-000000_p.mp4" : String) = OUT_DIR ++ "/" ++
      (envAlwaysOk.ts ++ "_" ++
        sanitize_filename (String.mk (("p" : String).data.take 60)) ++ ".mp4") ∧
    ∃ i d out q, envAlwaysOk.predict i d = CallResult.ok out 42 ∧
      video_path_of out = some q ∧ q ≠ "" ∧ envAlwaysOk.fileExists q = true :=
  generate_video_success_path envAlwaysOk "p" 6 4 "videos/20250101-000000_p.mp4" 42
    (by decide) (by decide)

lemma connectGo_cons_ok {env : String → ConnOutcome} {t : String} (ts : List String)
    (exc : Option PyErr) (h : env t = ConnOutcome.ok) :
    connectGo env (t :: ts) exc = ⟨[t], Except.ok t⟩ := by
  simp [connectGo, h]

lemma connectGo_cons_err {env : String → ConnOutcome} {t : String} (ts : List String)
    (exc : Option PyErr) {e : PyErr} (h : outcomeErr (env t) = some e) :
    connectGo env (t :: ts) exc =
      ⟨t :: (connectGo env ts (some e)).attempted, (connectGo env ts (some e)).result⟩ := by
  cases ho : env t with
  | ok => rw [ho] at h; simp [outcomeErr] at h
  | clientErr e' =>
    rw [ho] at h
    simp only [outcomeErr, Option.some.injEq] at h
    subst h
    simp [connectGo, ho]
  | probeErr e' =>
    rw [ho] at h
    simp only [outcomeErr, Option.some.injEq] at h
    subst h
    simp [connectGo, ho]

lemma outcome_ne_ok {env : String → ConnOutcome} {t : String}
    (h : env t ≠ ConnOutcome.ok) : ∃ e, outcomeErr (env t) = some e := by
  cases ho : env t with
  | ok => exact absurd ho h
  | clientErr e => exact ⟨e, rfl⟩
  | probeErr e => exact ⟨e, rfl⟩

lemma connectGo_first_ok (env : String → ConnOutcome) :
    ∀ (ids : List String) (exc : Option PyErr) (j : Nat) (hj : j < ids.length),
      (∀ i (hi : i < j), env (ids.get ⟨i, Nat.lt_trans hi hj⟩) ≠ ConnOutcome.ok) →
      env (ids.get ⟨j, hj⟩) = ConnOutcome.ok →
      connectGo env ids exc = ⟨ids.take (j + 1), Except.ok (ids.get ⟨j, hj⟩)⟩ := by
  intro ids
  induction ids with
  | nil => intro exc j hj; exact absurd hj (by simp)
  | cons t ts ih =>
    intro exc j hj hfail hok
    cases j with
    | zero =>
      rw [connectGo_cons_ok ts exc (by simpa using hok)]
      simp
    | succ j' =>
      have h0 := hfail 0 (Nat.succ_pos j')
      obtain ⟨e, he⟩ := outcome_ne_ok (show env t ≠ ConnOutcome.ok by simpa using h0)
      rw [connectGo_cons_err ts exc he]
      have hj' : j' < ts.length := by simpa using Nat.lt_of_succ_lt_succ hj
      have hfail' : ∀ i (hi : i < j'),
          env (ts.get ⟨i, Nat.lt_trans hi hj'⟩) ≠ ConnOutcome.ok := by
        intro i hi
        have h1 := hfail (i + 1) (Nat.succ_lt_succ hi)
        simpa [List.get_cons_succ] using h1
      have hok' : env (ts.get ⟨j', hj'⟩) = ConnOutcome.ok := by
        simpa [List.get_cons_succ] using hok
      rw [ih (some e) j' hj' hfail' hok']
      simp [List.get_cons_succ]

lemma connectGo_all_fail (env : String → ConnOutcome) :
    ∀ (ids : List String) (exc : Option PyErr) (e : PyErr) (hne : ids ≠ []),
      (∀ i (hi : i < ids.length), env (ids.get ⟨i, hi⟩) ≠ ConnOutcome.ok) →
      outcomeErr (env (ids.getLast hne)) = some e →
      connectGo env ids exc = ⟨ids, Except.error e⟩ := by
  intro ids
  induction ids with
  | nil => intro exc e hne; exact absurd rfl hne
  | cons t ts ih =>
    intro exc e hne hfail hlast
    have h0 := hfail 0 (by simp)
    obtain ⟨e0, he0⟩ := outcome_ne_ok (show env t ≠ ConnOutcome.ok by simpa using h0)
    rw [connectGo_cons_err ts exc he0]
    cases ts with
    | nil =>
      have hte : outcomeErr (env t) = some e := by simpa using hlast
      have he : e0 = e := by
        have h2 := he0.symm.trans hte
        injection h2
      subst he
      simp [connectGo]
    | cons t2 ts2 =>
      have hne' : t2 :: ts2 ≠ [] := by simp
      have hfail' : ∀ i (hi : i < (t2 :: ts2).length),
          env ((t2 :: ts2).get ⟨i, hi⟩) ≠ ConnOutcome.ok := by
        intro i hi
        have h1 := hfail (i + 1) (by simpa using Nat.succ_lt_succ hi)
        simpa [List.get_cons_succ] using h1
      have hlast' : outcomeErr (env ((t2 :: ts2).getLast hne')) = some e := by
        have hgl : (t :: t2 :: ts2).getLast hne = (t2 :: ts2).getLast hne' :=
          List.getLast_cons hne'
        rw [hgl] at hlast
        exact hlast
      rw [ih (some e0) e hne' hfail' hlast']

/-- Claim C2: `connect` returns a client for the first target whose
client construction and liveness probe (`view_api`) succeed, attempting
exactly the targets up to and including that one; and when every target
fails, it raises the error recorded from the last target attempted. -/
theorem connect_first_live (env : String → ConnOutcome) (ids : List String) :
    (∀ (j : Nat) (hj : j < ids.length),
      (∀ i (hi : i < j), env (ids.get ⟨i, Nat.lt_trans hi hj⟩) ≠ ConnOutcome.ok) →
      env (ids.get ⟨j, hj⟩) = ConnOutcome.ok →
      (connect env ids).attempted = ids.take (j + 1) ∧
      (connect env ids).result = Except.ok (ids.get ⟨j, hj⟩)) ∧
    (∀ (e : PyErr) (hne : ids ≠ []),
      (∀ i (hi : i < ids.length), env (ids.get ⟨i, hi⟩) ≠ ConnOutcome.ok) →
      outcomeErr (env (ids.getLast hne)) = some e →
      (connect env ids).attempted = ids ∧
      (connect env ids).result = Except.error e) := by
  constructor
  · intro j hj hfail hok
    unfold connect
    rw [connectGo_first_ok env ids none j hj hfail hok]
    exact ⟨rfl, rfl⟩
  · intro e hne hfail hlast
    unfold connect
    rw [connectGo_all_fail env ids none e hne hfail hlast]
    exact ⟨rfl, rfl⟩

/-- Claim C2 witness: target `"a"` fails, `"b"` is live, `"c"` is never
attempted; and with every target down, the error of the last target is
raised. -/
theorem connect_first_live_witness :
    ((connect connEnvSample ["a", "b", "c"]).attempted = ["a", "b", "c"].take 2 ∧
      (connect connEnvSample ["a", "b", "c"]).result =
        Except.ok (["a", "b", "c"].get ⟨1, by decide⟩)) ∧
    ((connect connEnvDown ["a", "bb"]).attempted = ["a", "bb"] ∧
      (connect connEnvDown ["a", "bb"]).result = Except.error (PyErr.remote 2)) :=
  ⟨(connect_first_live connEnvSample ["a", "b", "c"]).1 1 (by decide)
      (by decide) (by decide),
   (connect_first_live connEnvDown ["a", "bb"]).2 (PyErr.remote 2) (by decide)
      (by decide) (by decide)⟩

lemma subGo_mem_allowed : ∀ (l : List Char) (b : Bool) (c : Char),
    c ∈ subGo l b → allowedChar c = true := by
  intro l
  induction l with
  | nil => intro b c h; simp [subGo] at h
  | cons d rest ih =>
    intro b c h
    simp only [subGo] at h
    by_cases hd : allowedChar d
    · rw [if_pos hd] at h
      rcases List.mem_cons.mp h with h | h
      · rw [h]; exact hd
      · exact ih false c h
    · rw [if_neg hd] at h
      cases b with
      | true => exact ih true c (by simpa using h)
      | false =>
        rcases List.mem_cons.mp (by simpa using h) with h | h
        · rw [h]; decide
        · exact ih true c h

lemma pyStrip_mem {l : List Char} {c : Char} (h : c ∈ pyStrip l) : c ∈ l := by
  unfold pyStrip at h
  rw [List.mem_reverse] at h
  have h2 := (List.dropWhile_sublist _).subset h
  rw [List.mem_reverse] at h2
  exact (List.dropWhile_sublist _).subset h2

lemma pyStrip_length_le (l : List Char) : (pyStrip l).length ≤ l.length := by
  unfold pyStrip
  rw [List.length_reverse]
  calc ((l.dropWhile isPySpace).reverse.dropWhile isPySpace).length
      ≤ (l.dropWhile isPySpace).reverse.length := (List.dropWhile_sublist _).length_le
    _ = (l.dropWhile isPySpace).length := List.length_reverse _
    _ ≤ l.length := (List.dropWhile_sublist _).length_le

lemma spaceToUnderscore_ok (a : Char) (h : allowedChar a = true) :
    allowedChar (spaceToUnderscore a) = true ∧ spaceToUnderscore a ≠ ' ' := by
  unfold spaceToUnderscore
  by_cases hsp : a = ' '
  · subst hsp
    exact ⟨by decide, by decide⟩
  · rw [if_neg (by simpa using hsp)]
    exact ⟨h, hsp⟩

/-- Claim C4: `sanitize_filename` depends only on the characters of its
input (hence two runs on equal input agree), its output is capped at 80
characters, and every output character is in the class
`[A-Za-z0-9_. -]` yet is not a space (spaces were replaced by
underscores). -/
theorem sanitize_filename_props (s : String) :
    sanitize_filename (String.mk s.data) = sanitize_filename s ∧
    (sanitize_filename s).length ≤ 80 ∧
    ((sanitize_filename s).data.all fun c => allowedChar c && !(c == ' ')) = true := by
  refine ⟨rfl, ?_, ?_⟩
  · show ((pyStrip ((reSubDisallowed s.data).take 80)).map spaceToUnderscore).length ≤ 80
    rw [List.length_map]
    have h1 := pyStrip_length_le ((reSubDisallowed s.data).take 80)
    have h2 := List.length_take_le 80 (reSubDisallowed s.data)
    omega
  · rw [List.all_eq_true]
    intro c hc
    have hc' : c ∈ (pyStrip ((reSubDisallowed s.data).take 80)).map spaceToUnderscore := hc
    obtain ⟨a, ha, hca⟩ := List.mem_map.mp hc'
    have haIn : a ∈ reSubDisallowed s.data := List.take_subset 80 _ (pyStrip_mem ha)
    have haAllowed : allowedChar a = true := subGo_mem_allowed s.data false a haIn
    obtain ⟨h1, h2⟩ := spaceToUnderscore_ok a haAllowed
    rw [← hca]
    simp [h1, h2]

/-- Claim C9: for every retries count greater than 4, `generate_video`
behaves exactly as with retries = 4 (the ladder has only 4 entries, so
`durations_try[:retries]` is the whole ladder), and the number of remote
calls made is at most `min retries 4 = 4`. -/
theorem generate_video_retries_capped (env : Env) (p : String) (duration : ℚ)
    (retries : ℤ) (h : 4 < retries) :
    generate_video env p duration retries = generate_video env p duration 4 ∧
    (generate_video env p duration retries).calls.length ≤ min retries.toNat 4 := by
  have h4 : pySliceTo (durations_try duration) 4 = durations_try duration := by
    unfold pySliceTo
    rw [if_neg (by omega)]
    exact List.take_of_length_le (by rw [durations_try_length]; omega)
  have hr : pySliceTo (durations_try duration) retries = durations_try duration := by
    unfold pySliceTo
    rw [if_neg (by omega)]
    exact List.take_of_length_le (by rw [durations_try_length]; omega)
  have hmin : min retries.toNat 4 = 4 := by omega
  refine ⟨?_, ?_⟩
  · unfold generate_video
    rw [h4, hr]
  · rw [hmin]
    unfold generate_video
    rw [hr]
    exact genLoop_calls_length_le env p (durations_try duration) 1 none

/-- Claim C9 witness: with retries = 7 the run equals the retries = 4 run
and makes at most `min 7 4` calls. -/
theorem generate_video_retries_capped_witness :
    (4 : ℤ) < 7 ∧
    (generate_video envFailAll "p" 6 7 = generate_video envFailAll "p" 6 4 ∧
      (generate_video envFailAll "p" 6 7).calls.length ≤ min (7 : ℤ).toNat 4) :=
  ⟨by decide, generate_video_retries_capped envFailAll "p" 6 7 (by decide)⟩

/-- Claim C10 counterexample: with retries = -1 (a negative count), the
Python slice `durations_try[:-1]` keeps the first three ladder entries,
so three remote calls are made and the error of attempt 3 is raised —
not the fallback `RuntimeError`. -/
theorem generate_video_neg_retries_calls :
    (generate_video envFailAll "p" 6 (-1)).calls.length = 3 ∧
    (generate_video envFailAll "p" 6 (-1)).result = Except.error (PyErr.remote 3) ∧
    ¬ ((generate_video envFailAll "p" 6 (-1)).calls = [] ∧
      (generate_video envFailAll "p" 6 (-1)).result =
        Except.error (PyErr.runtimeError "Unknown generation failure.")) := by
  decide

/-- Claim C10 (amended): with retries = 0, or retries ≤ -4 (where the
slice is empty as well), no remote call is made, no sleep happens, and
`RuntimeError("Unknown generation failure.")` is raised. -/
theorem generate_video_no_attempts (env : Env) (p : String) (duration : ℚ)
    (retries : ℤ) (h : retries = 0 ∨ retries ≤ -4) :
    generate_video env p duration retries =
      ⟨[], [], Except.error (PyErr.runtimeError "Unknown generation failure.")⟩ := by
  have hl : pySliceTo (durations_try duration) retries = [] := by
    unfold pySliceTo
    rcases h with h | h
    · subst h
      rw [if_neg (by omega)]
      rfl
    · rw [if_pos (by omega)]
      have h0 : (durations_try duration).length - (-retries).toNat = 0 := by
        rw [durations_try_length]
        omega
      rw [h0]
      rfl
  unfold generate_video
  rw [hl]
  rfl

/-- Claim C10 (amended) witness: the retries = 0 run. -/
theorem generate_video_no_attempts_witness :
    ((0 : ℤ) = 0 ∨ (0 : ℤ) ≤ -4) ∧
    generate_video envFailAll "p" 6 0 =
      ⟨[], [], Except.error (PyErr.runtimeError "Unknown generation failure.")⟩ :=
  ⟨Or.inl rfl, generate_video_no_attempts envFailAll "p" 6 0 (Or.inl rfl)⟩

/-- Claim C7 (divergence exhibit): in a run whose single attempt fails
(retries = 1), exactly one backoff sleep is performed even though no
further attempt follows, so the sleep is not between two attempts; the
recorded error is then raised. -/
theorem generate_video_sleep_after_final_attempt :
    (generate_video envFailAll "p" 6 1).calls.length = 1 ∧
    (generate_video envFailAll "p" 6 1).sleeps.length = 1 ∧
    (generate_video envFailAll "p" 6 1).result = Except.error (PyErr.remote 1) := by
  decide

/-- Claim C8: whenever the requested duration lies in the slider range
[3.0, 6.0], every duration actually passed to a remote call during the
run (the requested one or a fallback entry 5.0, 4.0, 3.5) also lies in
[3.0, 6.0]. -/
theorem generate_video_duration_range (env : Env) (p : String) (duration : ℚ)
    (retries : ℤ) (h3 : 3 ≤ duration) (h6 : duration ≤ 6) :
    ((generate_video env p duration retries).calls.all
      (fun cd => decide (3 ≤ cd.2 ∧ cd.2 ≤ 6))) = true := by
  rw [List.all_eq_true]
  intro cd hcd
  rw [decide_eq_true_eq]
  have hmem : cd.2 ∈ pySliceTo (durations_try duration) retries :=
    genLoop_calls_mem env p _ 1 none cd hcd
  have hmem2 : cd.2 ∈ durations_try duration := by
    unfold pySliceTo at hmem
    split at hmem <;> exact List.take_subset _ _ hmem
  simp only [durations_try, List.mem_cons, List.not_mem_nil, or_false] at hmem2
  rcases hmem2 with h | h | h | h <;> rw [h] <;>
    refine ⟨?_, ?_⟩ <;> first | assumption | norm_num

/-- Claim C8 witness: the default slider value 5.1 with the default
retries = 4. -/
theorem generate_video_duration_range_witness :
    (3 ≤ (51/10 : ℚ) ∧ (51/10 : ℚ) ≤ 6) ∧
    ((generate_video envFailAll "p" (51/10) 4).calls.all
      (fun cd => decide (3 ≤ cd.2 ∧ cd.2 ≤ 6))) = true :=
  ⟨⟨by norm_num, by norm_num⟩,
    generate_video_duration_range envFailAll "p" (51/10) 4 (by norm_num) (by norm_num)⟩

end TextToVideo
